import Mathlib

/-!
# Verification of the transaction-scraper core

A shallow embedding, in Lean 4, of the core pipeline of the
`amazon-transaction-scraper` repository (`src/scraper.ts`,
`src/schemas.ts` as shipped inside `src/config.ts`), together with
proofs and refutations of the specification's claims about it.

Modelling conventions:
* JavaScript numbers are modelled as exact rationals (`ℚ`); every value
  occurring in the claims is exactly representable, and the claims are
  about the structure of the computation, not IEEE rounding.
* JavaScript strings are Lean `String`s; the regular expressions used by
  the source are implemented as explicit character-list scanners that
  follow the source patterns construct by construct.
* A JS object field that a constructor does not set reads back as
  `undefined`; every numeric use in the source guards with `|| 0`, so an
  absent numeric field is modelled as `0`, and absent string fields as
  `""` (via the same `||` defaulting the source uses).
* `parseFloat` is modelled on the shapes that actually reach it here
  (strings beginning with a digit, or beginning with a comma, in which
  case JS yields NaN and the model yields `none`).
-/

/-- One lightweight record reference produced by the list pager
(`BasicTransaction` in `types.ts`): id, date, amount and the detail URL. -/
structure BasicTransaction where
  orderId : String
  date : String
  total : ℚ
  orderDetailsUrl : String
deriving DecidableEq

/-- One purchased item (`Item` in `types.ts`). -/
structure Item where
  name : String
  price : ℚ
  quantity : ℕ
  seller : String
  imageUrl : String
  productUrl : String
deriving DecidableEq

/-- A fully populated transaction record (`Transaction` in `types.ts`).
`addressFull` models `address.full` (the only address key the scraper ever
writes); `refund` models the dynamically attached `refund` number, `0`
when the field is absent (all numeric reads guard with `|| 0`). -/
structure Transaction where
  orderId : String
  date : String
  total : ℚ
  status : String
  recipient : String
  addressFull : Option String
  items : List Item
  orderScreenshot : String
  paymentMethod : String
  trackingNumber : String
  refund : ℚ
deriving DecidableEq

/-- The argument of `createTransaction` (`Partial<Transaction>` in
`schemas.ts`): every field optional.  `orderDetailsUrl` and `refund` may be
passed by callers (`scrapeOrderDetailsWithPage` spreads them in) but the
constructor's object literal does not copy them. -/
structure TransactionInput where
  orderId : Option String := none
  date : Option String := none
  total : Option ℚ := none
  status : Option String := none
  recipient : Option String := none
  addressFull : Option String := none
  items : Option (List Item) := none
  orderScreenshot : Option String := none
  paymentMethod : Option String := none
  trackingNumber : Option String := none
  orderDetailsUrl : Option String := none
  refund : Option ℚ := none
deriving DecidableEq

/-- JS `x || dflt` for a possibly-absent string: absent and `""` are falsy. -/
def jsOrStr : Option String → String → String
  | none, d => d
  | some s, d => if s = "" then d else s

/-- JS `x || dflt` for a possibly-absent number: absent and `0` are falsy. -/
def jsOrRat : Option ℚ → ℚ → ℚ
  | none, d => d
  | some q, d => if q = 0 then d else q

/-- `createTransaction` (`schemas.ts`, shipped at `config.ts:360-373`): builds
a `Transaction` from partial data with `||` defaults.  The object literal
sets exactly the ten interface fields; it copies no `refund` and no
`orderDetailsUrl`, so the constructed record's `refund` reads as absent
(`0` under `|| 0`). -/
def createTransaction (data : TransactionInput) : Transaction :=
  { orderId := jsOrStr data.orderId ""
    date := jsOrStr data.date ""
    total := jsOrRat data.total 0
    status := jsOrStr data.status "unknown"
    recipient := jsOrStr data.recipient ""
    addressFull := data.addressFull
    items := data.items.getD []
    orderScreenshot := jsOrStr data.orderScreenshot ""
    paymentMethod := jsOrStr data.paymentMethod ""
    trackingNumber := jsOrStr data.trackingNumber ""
    refund := 0 }

/-- Value of a digit string, most significant first. -/
def digitsVal (ds : List Char) : ℕ :=
  ds.foldl (fun n c => 10 * n + (c.toNat - 48)) 0

/-- JS `parseFloat` on the strings produced by the currency captures below:
parses a maximal leading `\d+(\.\d*)?` and ignores the rest of the string;
a string that does not start with a digit (e.g. a leftover comma) gives
NaN, modelled as `none`. -/
def jsParseFloat (cs : List Char) : Option ℚ :=
  match cs.span Char.isDigit with
  | (ds, rest) =>
    if ds.isEmpty then none
    else
      match rest with
      | '.' :: rest2 =>
        let fs := rest2.takeWhile Char.isDigit
        let den := Nat.pow 10 fs.length
        some (mkRat (digitsVal ds * den + digitsVal fs) den)
      | _ => some (mkRat (digitsVal ds) 1)

/-- JS `s.replace(',', '')` with a string pattern: removes only the FIRST
comma of `s`. -/
def removeFirstComma : List Char → List Char
  | [] => []
  | c :: cs => if c = ',' then cs else c :: removeFirstComma cs

/-- `parseFloat(group.replace(',', ''))` as applied to every currency
capture in the source.  NaN (no leading digit after comma removal) is
modelled as `0`; it cannot arise on any input considered in the claims. -/
def parseCurrency (g : List Char) : ℚ :=
  (jsParseFloat (removeFirstComma g)).getD 0

/-- JS `String.prototype.trim()`: strip whitespace from both ends. -/
def jsTrim (s : String) : String :=
  String.mk (((s.toList.dropWhile Char.isWhitespace).reverse.dropWhile
    Char.isWhitespace).reverse)

/-- Greedy `(?:,\d{3})*`: consumes `,` followed by exactly three digits,
as many times as possible; returns (consumed, rest). -/
def thousandsGroups : List Char → List Char × List Char
  | ',' :: a :: b :: c :: rest =>
    if a.isDigit && b.isDigit && c.isDigit then
      match thousandsGroups rest with
      | (g, r) => (',' :: a :: b :: c :: g, r)
    else ([], ',' :: a :: b :: c :: rest)
  | cs => ([], cs)

/-- The capture group of `\$(\d+(?:,\d{3})*(?:\.\d{2})?)` tried at the
position just after a `$`: `\d+`, then greedy thousands groups, then an
optional `.` with exactly two digits.  `none` when no digit follows. -/
def amountGroupAfterDollar (cs : List Char) : Option (List Char) :=
  match cs.span Char.isDigit with
  | (ds, rest) =>
    if ds.isEmpty then none
    else
      match thousandsGroups rest with
      | (gs, rest2) =>
        match rest2 with
        | '.' :: a :: b :: _ =>
          if a.isDigit && b.isDigit then some (ds ++ gs ++ ['.', a, b])
          else some (ds ++ gs)
        | _ => some (ds ++ gs)

/-- First match of `/\$(\d+(?:,\d{3})*(?:\.\d{2})?)/` in a string
(`scraper.ts:294`), returning the capture group. -/
def amountCapture : List Char → Option (List Char)
  | [] => none
  | '$' :: cs =>
    match amountGroupAfterDollar cs with
    | some g => some g
    | none => amountCapture cs
  | _ :: cs => amountCapture cs

/-- The capture group of `\$([,\d]+\.?\d*)` tried just after a `$`:
a non-empty run of digits/commas, then an optional `.` with greedy
digits. -/
def looseGroupAfterDollar (cs : List Char) : Option (List Char) :=
  match cs.span (fun c => c.isDigit || c = ',') with
  | (run, rest) =>
    if run.isEmpty then none
    else
      match rest with
      | '.' :: rest2 => some (run ++ '.' :: rest2.takeWhile Char.isDigit)
      | _ => some run

/-- First match of `/\$([,\d]+\.?\d*)/` in a string (the refund-amount
pattern, `scraper.ts:979` and `:995`), returning the capture group. -/
def currencyCapture : List Char → Option (List Char)
  | [] => none
  | '$' :: cs =>
    match looseGroupAfterDollar cs with
    | some g => some g
    | none => currencyCapture cs
  | _ :: cs => currencyCapture cs

/-- Strips `marker` from the front of `cs`, or `none` if it is not there. -/
def dropMarker : List Char → List Char → Option (List Char)
  | [], cs => some cs
  | _ :: _, [] => none
  | m :: ms, c :: cs => if c = m then dropMarker ms cs else none

/-- First match of `/orderID=([^&]+)/` in an href (`scraper.ts:284`),
returning the capture group. -/
def captureOrderIdParam : List Char → Option String
  | [] => none
  | c :: cs =>
    match dropMarker ("orderID=".toList) (c :: cs) with
    | some rest =>
      let v := rest.takeWhile (fun ch => ch ≠ '&')
      if v.isEmpty then none else some (String.mk v)
    | none => captureOrderIdParam cs

/-- Exactly `n` digits from the front of the list, with the rest. -/
def takeDigitsExact : ℕ → List Char → Option (List Char × List Char)
  | 0, cs => some ([], cs)
  | _ + 1, [] => none
  | n + 1, c :: cs =>
    if c.isDigit then
      match takeDigitsExact n cs with
      | some (ds, r) => some (c :: ds, r)
      | none => none
    else none

/-- The tail `\d{2}-\d{7}-\d{7}` of both order-id alternatives, after the
leading `head` character has matched. -/
def idTail (head : Char) (rest : List Char) : Option (List Char) :=
  match takeDigitsExact 2 rest with
  | some (d2, r1) =>
    match r1 with
    | '-' :: r2 =>
      match takeDigitsExact 7 r2 with
      | some (d7a, r3) =>
        match r3 with
        | '-' :: r4 =>
          match takeDigitsExact 7 r4 with
          | some (d7b, _) => some (head :: (d2 ++ '-' :: (d7a ++ '-' :: d7b)))
          | none => none
        | _ => none
      | none => none
    | _ => none
  | none => none

/-- First match of `/(D\d{2}-\d{7}-\d{7}|1\d{2}-\d{7}-\d{7})/` in the row
text (`scraper.ts:302`). -/
def idShapeCapture : List Char → Option String
  | [] => none
  | 'D' :: cs =>
    match idTail 'D' cs with
    | some g => some (String.mk g)
    | none => idShapeCapture cs
  | '1' :: cs =>
    match idTail '1' cs with
    | some g => some (String.mk g)
    | none => idShapeCapture cs
  | _ :: cs => idShapeCapture cs

/-- What `extractTransactionFromRow` observes of one transaction row: the
href of the first order link (`row.$('a[href*="order"], ...')`), if any,
and the row's text content. -/
structure RowModel where
  orderLinkHref : Option String
  text : String
deriving DecidableEq

/-- The fixed order-details URL template of `scraper.ts:305`/`:311`. -/
def orderUrlFor (orderId : String) : String :=
  "https://www.amazon.com/gp/your-account/order-details?orderID=" ++ orderId

/-- `extractTransactionFromRow` (`scraper.ts:267-330`): three-tier
extraction of a `BasicTransaction` from one row.  `syntheticId` stands for
the `Date.now()` timestamp used for the fallback id. -/
def extractTransactionFromRow (baseUrl syntheticId : String) (row : RowModel) :
    Option BasicTransaction :=
  -- tier 1: an order link whose href carries an orderID query parameter
  let step1 : String × String :=
    match row.orderLinkHref with
    | some href =>
      let url :=
        if (dropMarker ("http".toList) href.toList).isSome then href
        else baseUrl ++ href
      (match captureOrderIdParam href.toList with
       | some i => i
       | none => "", url)
    | none => ("", "")
  -- the first currency amount in the row text (skipped when the text is empty)
  let total : ℚ :=
    if row.text = "" then 0
    else
      match amountCapture row.text.toList with
      | some g => parseCurrency g
      | none => 0
  -- tier 2: an id-shaped code in the row text, when tier 1 found no id
  let step2 : String × String :=
    if step1.1 = "" ∧ row.text ≠ "" then
      match idShapeCapture row.text.toList with
      | some i => (i, orderUrlFor i)
      | none => step1
    else step1
  -- construct the URL when an id was found without one
  let url : String :=
    if step2.1 ≠ "" ∧ step2.2 = "" then orderUrlFor step2.1 else step2.2
  if step2.1 ≠ "" ∨ total > 0 then
    some { orderId := if step2.1 = "" then "unknown-" ++ syntheticId else step2.1
           date := ""
           total := total
           orderDetailsUrl := url }
  else none

/-- What one page of the transaction list offers the pager: the row
elements matching `.apx-transactions-line-item-component-container` and
whether a "Next Page" control is present. -/
structure PageView where
  rows : List RowModel
  hasNext : Bool

/-- Result of the pagination walk: the collected refs and the number of
"Next Page" activations (page advances) performed. -/
structure PagerResult where
  txs : List BasicTransaction
  clicks : ℕ
deriving DecidableEq

/-- The per-page row pass of `scrapeTransactionList` (`scraper.ts:207-220`):
each row yields at most one `BasicTransaction`; a `null` result and a
caught per-row error both leave the accumulator unchanged. -/
def extractRefs (baseUrl syntheticId : String) (rows : List RowModel) :
    List BasicTransaction :=
  rows.filterMap (extractTransactionFromRow baseUrl syntheticId)

/-- The `while (true)` pagination loop of `scrapeTransactionList`
(`scraper.ts:194-248`), driven by the page the browser shows for each
value of `currentPage` (`env`).  The loop: collect rows; stop if none;
if a "Next Page" control exists, click it (one advance), increment
`currentPage`, and stop when `currentPage > 10` (the safety cap), else
loop; stop when no control exists.  `fuel` only makes the recursion
structural: the entry point passes `11`, which the cap makes sufficient,
so the `0` clause is unreachable from `scrapeTransactionListModel`. -/
def pageLoopGo (env : ℕ → PageView) (baseUrl syntheticId : String) :
    ℕ → ℕ → List BasicTransaction → PagerResult
  | 0, _, acc => ⟨acc, 0⟩
  | fuel + 1, cur, acc =>
    let pv := env cur
    if pv.rows.isEmpty then ⟨acc, 0⟩
    else
      let acc2 := acc ++ extractRefs baseUrl syntheticId pv.rows
      if pv.hasNext then
        if 10 < cur + 1 then ⟨acc2, 1⟩
        else
          let r := pageLoopGo env baseUrl syntheticId fuel (cur + 1) acc2
          ⟨r.txs, r.clicks + 1⟩
      else ⟨acc2, 0⟩

/-- `scrapeTransactionList` (`scraper.ts:166-265`): run the pagination
walk from `currentPage = 1` with an empty accumulator. -/
def scrapeTransactionListModel (env : ℕ → PageView) (baseUrl syntheticId : String) :
    PagerResult :=
  pageLoopGo env baseUrl syntheticId 11 1 []

/-- Modelled from the spec, for comparison with `pageLoopGo`: the
listing's output as the plain concatenation of each visited page's
extracted refs, in page order, with duplicates preserved (no id-based
deduplication step anywhere). -/
def specListedRefs (env : ℕ → PageView) (baseUrl syntheticId : String) :
    ℕ → ℕ → List BasicTransaction
  | 0, _ => []
  | fuel + 1, cur =>
    let pv := env cur
    if pv.rows.isEmpty then []
    else
      extractRefs baseUrl syntheticId pv.rows ++
        (if pv.hasNext then
          (if 10 < cur + 1 then []
           else specListedRefs env baseUrl syntheticId fuel (cur + 1))
         else [])

/-- The inner chunking loop of `chunkArray` (`scraper.ts:849-851`):
`for (let i = 0; i < array.length; i += chunkSize) result.push(array.slice(i, i + chunkSize))`.
`fuel` (instantiated with `array.length`, an upper bound on the number of
pushes whenever the list shrinks each step) makes the recursion
structural; the `0` clause is unreachable from `chunkArray`. -/
def chunkLoopGo {α : Type} (chunkSize : ℕ) : ℕ → List α → List (List α)
  | 0, _ => []
  | _, [] => []
  | fuel + 1, a :: l =>
    (a :: l.take (chunkSize - 1)) :: chunkLoopGo chunkSize fuel (l.drop (chunkSize - 1))

/-- `chunkArray` (`scraper.ts:845-859`): slice the list into contiguous
chunks of `Math.ceil(array.length / chunks)` elements, then pad with
empty chunks until there are `chunks` of them.  (`chunks = 0`, on which
the JS loop would not terminate for a non-empty input, never occurs: the
only call site passes the pool size 4.) -/
def chunkArray {α : Type} (l : List α) (chunks : ℕ) : List (List α) :=
  let chunkSize := (l.length + chunks - 1) / chunks
  let result := chunkLoopGo chunkSize l.length l
  result ++ List.replicate (chunks - result.length) []

/-- The dedup filtering step of `scrapeTransactions` (`scraper.ts:125-131`):
drop every listed ref whose id the `processedOrders` index already
contains.  The JS `Set` is modelled by a list, membership by `contains`. -/
def filterNewTransactions (processed : List String) (ts : List BasicTransaction) :
    List BasicTransaction :=
  ts.filter (fun t => !(processed.contains t.orderId))

/-- What `extractOrderDetailsWithPage` returns (`scraper.ts:937-1024`):
the detail fields of one order.  `addressFull` models `address.full`. -/
structure OrderDetails where
  recipient : String
  addressFull : Option String
  items : List Item
  paymentMethod : String
  trackingNumber : String
  refund : ℚ
deriving DecidableEq

/-- Outcome of one job's navigation/render/extraction inside
`scrapeOrderDetailsWithPage`: either everything up to `createTransaction`
succeeded, yielding the extracted details and the (optional) date found
by the body-text date-pattern scan (`scraper.ts:890-906`), or some step
threw and the `catch` of `scraper.ts:922-934` fires. -/
inductive JobOutcome where
  | ok (details : OrderDetails) (pageDate : Option String)
  | failed
deriving DecidableEq

/-- The per-record screenshot path `order-<id>.png` under the screenshots
directory (`scraper.ts:872-875`). -/
def screenshotPathFor (dir orderId : String) : String :=
  dir ++ "/order-" ++ orderId ++ ".png"

/-- The date resolution of `scrapeOrderDetailsWithPage`
(`scraper.ts:889-906` and `:912`): keep the job's date when non-empty,
otherwise use the first body-text date-pattern match when one exists,
otherwise fall back to the (empty) job date. -/
def resolveOrderDate (jobDate : String) (pageDate : Option String) : String :=
  if jobDate = "" then
    match pageDate with
    | some d => d
    | none => jobDate
  else jobDate

/-- `scrapeOrderDetailsWithPage` (`scraper.ts:861-935`), one job: on
success, `createTransaction` over the job's id/date/amount, the
screenshot path and the spread extracted details; on any caught failure,
`createTransaction` over the job's id, date and amount only (with an
empty screenshot path and no items) — the minimal degraded record. -/
def scrapeOrderDetailsWithPageModel (dir : String) (t : BasicTransaction)
    (outcome : JobOutcome) : Transaction :=
  match outcome with
  | JobOutcome.ok d pageDate =>
    createTransaction
      { orderId := some t.orderId
        date := some (resolveOrderDate t.date pageDate)
        total := some t.total
        orderScreenshot := some (screenshotPathFor dir t.orderId)
        orderDetailsUrl := some t.orderDetailsUrl
        recipient := some d.recipient
        addressFull := d.addressFull
        items := some d.items
        paymentMethod := some d.paymentMethod
        trackingNumber := some d.trackingNumber
        refund := some d.refund }
  | JobOutcome.failed =>
    createTransaction
      { orderId := some t.orderId
        date := some t.date
        total := some t.total
        orderScreenshot := some ""
        orderDetailsUrl := some t.orderDetailsUrl
        items := some [] }

/-- One worker's sequential loop over its chunk
(`processTransactionsInParallel`, `scraper.ts:799-817`): each job is
processed in order and pushes exactly one record — the job outcome
decides whether it is the full or the degraded one. -/
def processChunk (dir : String) (outcome : BasicTransaction → JobOutcome) :
    List BasicTransaction → List Transaction
  | [] => []
  | t :: ts =>
    scrapeOrderDetailsWithPageModel dir t (outcome t) :: processChunk dir outcome ts

/-- The `totalAmount` metadata computation of `scrapeTransactions`
(`scraper.ts:144-146`):
`transactions.reduce((sum, t) => sum + (t.total || 0) - (t.refund || 0), 0)`. -/
def totalAmountOf (ts : List Transaction) : ℚ :=
  ts.foldl (fun sum t => sum + t.total - t.refund) 0

/-- Modelled from the spec: the `netAmount` of a `DetailedRecord`.  The
code stores no such field; the spec defines it by the invariant
`netAmount == amount - refundAmount`, i.e. as the record's `total` minus
its `refund`. -/
def netAmount (t : Transaction) : ℚ :=
  t.total - t.refund

/-- The screenshot-capture guard of `scrapeOrderDetailsWithPage`
(`scraper.ts:877-883`): the file system is modelled as the list of
existing paths; when the target path already exists the capture is
skipped (`performed = false`) and nothing changes, otherwise the capture
runs once and creates the file. -/
structure CaptureResult where
  fs : List String
  performed : Bool
deriving DecidableEq

/-- `if (!await fs.pathExists(screenshotPath)) { takeSmartOrderScreenshot }` -/
def ensureScreenshot (fsPaths : List String) (targetPath : String) : CaptureResult :=
  if targetPath ∈ fsPaths then ⟨fsPaths, false⟩
  else ⟨targetPath :: fsPaths, true⟩

/-- One element of `page.$$('span, div, td')` as the refund scan of
`extractOrderDetailsWithPage` (`scraper.ts:967-1003`) observes it: its
text content, its parent element's text content (when available) and the
joined text of its parent's children (when available). -/
structure RefundProbe where
  text : String
  parentText : Option String
  siblingsText : Option String
deriving DecidableEq

/-- The refund scan of `extractOrderDetailsWithPage`
(`scraper.ts:967-1003`): walk the probes in document order; at the first
probe whose trimmed text is exactly `"Refund Total"` and whose parent
text — or, failing that, whose joined sibling text — contains a currency
match, parse that match and stop; probes that produce no match do not
stop the walk; the initial value `0.0` survives when nothing matches. -/
def refundFromProbes : List RefundProbe → ℚ
  | [] => 0
  | p :: ps =>
    if jsTrim p.text = "Refund Total" then
      match p.parentText.bind (fun pt => currencyCapture pt.toList) with
      | some g => parseCurrency g
      | none =>
        match p.siblingsText.bind (fun st => currencyCapture st.toList) with
        | some g => parseCurrency g
        | none => refundFromProbes ps
    else refundFromProbes ps

/-- The concrete index and pager output of the spec's dedup example. -/
def exampleIndex : List String := ["111-1111111-1111111"]

def exampleRef1 : BasicTransaction :=
  { orderId := "111-1111111-1111111", date := "", total := 10, orderDetailsUrl := "" }

def exampleRef2 : BasicTransaction :=
  { orderId := "222-2222222-2222222", date := "", total := 20, orderDetailsUrl := "" }

/-- The default value used for out-of-range `getD` reads below. -/
def emptyBasic : BasicTransaction :=
  { orderId := "", date := "", total := 0, orderDetailsUrl := "" }

def wJob1 : BasicTransaction :=
  { orderId := "113-0000001-0000001", date := "Jan 2, 2024", total := 5,
    orderDetailsUrl := "u1" }

def wJob2 : BasicTransaction :=
  { orderId := "113-0000002-0000002", date := "", total := 7, orderDetailsUrl := "u2" }

def wOutcome : BasicTransaction → JobOutcome := fun t =>
  if t.orderId = "113-0000002-0000002" then JobOutcome.failed
  else JobOutcome.ok
    { recipient := "R", addressFull := none, items := [], paymentMethod := "card",
      trackingNumber := "", refund := 0 } none

def wFs : List String := ["shots/order-113-0000001-0000001.png"]

def wProbe : RefundProbe :=
  { text := "Refund Total", parentText := some "Refund Total ... $12.50",
    siblingsText := none }

/-- The row and two-page listing of the duplication counterexample: the
same structurally valid row (order link with an `orderID` parameter and a
currency amount) is shown on page 1 and again on page 2. -/
def dupRow : RowModel :=
  { orderLinkHref :=
      some "https://www.amazon.com/gp/your-account/order-details?orderID=111-1111111-1111111"
    text := "Charged $10.00" }

def dupPages : ℕ → PageView
  | 1 => { rows := [dupRow], hasNext := true }
  | 2 => { rows := [dupRow], hasNext := false }
  | _ => { rows := [], hasNext := false }

/-- A transaction row whose text carries a currency amount with two
thousands separators. -/
def hugeRow : RowModel :=
  { orderLinkHref := none, text := "Charged $1,234,567.89 today" }

/-! ## Helper lemmas about the chunking loop -/

lemma chunkLoopGo_join {α : Type} (cs : ℕ) :
    ∀ (fuel : ℕ) (l : List α), l.length ≤ fuel →
      (chunkLoopGo cs fuel l).join = l := by
  intro fuel
  induction fuel with
  | zero =>
    intro l hl
    have : l = [] := List.eq_nil_of_length_eq_zero (Nat.le_zero.mp hl)
    subst this
    simp [chunkLoopGo]
  | succ f ih =>
    intro l hl
    cases l with
    | nil => simp [chunkLoopGo]
    | cons a l =>
      have hlen : (l.drop (cs - 1)).length ≤ f := by
        have := List.length_drop (cs - 1) l
        simp at hl
        omega
      simp [chunkLoopGo, ih _ hlen]

lemma chunkLoopGo_length_le {α : Type} (cs : ℕ) (hcs : 1 ≤ cs) :
    ∀ (fuel n : ℕ) (l : List α), l.length ≤ cs * n →
      (chunkLoopGo cs fuel l).length ≤ n := by
  intro fuel
  induction fuel with
  | zero => intro n l _; simp [chunkLoopGo]
  | succ f ih =>
    intro n l hl
    cases l with
    | nil => simp [chunkLoopGo]
    | cons a l =>
      cases n with
      | zero => simp at hl
      | succ m =>
        have hlen : (l.drop (cs - 1)).length ≤ cs * m := by
          have h1 := List.length_drop (cs - 1) l
          have h2 : (a :: l).length = l.length + 1 := by simp
          have h3 : cs * (m + 1) = cs * m + cs := by ring
          omega
        have := ih m (l.drop (cs - 1)) hlen
        simp [chunkLoopGo]
        omega

lemma chunkLoopGo_le_mul {α : Type} (cs : ℕ) (hcs : 1 ≤ cs) :
    ∀ (fuel : ℕ) (l : List α), l.length ≤ fuel →
      l.length ≤ cs * (chunkLoopGo cs fuel l).length := by
  intro fuel
  induction fuel with
  | zero =>
    intro l hl
    have : l = [] := List.eq_nil_of_length_eq_zero (Nat.le_zero.mp hl)
    subst this
    simp
  | succ f ih =>
    intro l hl
    cases l with
    | nil => simp
    | cons a l =>
      have hfuel : (l.drop (cs - 1)).length ≤ f := by
        have := List.length_drop (cs - 1) l
        simp at hl
        omega
      have hrec := ih (l.drop (cs - 1)) hfuel
      have hdrop := List.length_drop (cs - 1) l
      have hmul : cs * ((chunkLoopGo cs f (l.drop (cs - 1))).length + 1)
          = cs * (chunkLoopGo cs f (l.drop (cs - 1))).length + cs := by ring
      simp [chunkLoopGo]
      omega

lemma chunkLoopGo_ne_nil {α : Type} (cs : ℕ) :
    ∀ (fuel : ℕ) (l : List α) (c : List α), c ∈ chunkLoopGo cs fuel l → c ≠ [] := by
  intro fuel
  induction fuel with
  | zero => intro l c hc; simp [chunkLoopGo] at hc
  | succ f ih =>
    intro l c hc
    cases l with
    | nil => simp [chunkLoopGo] at hc
    | cons a l =>
      simp [chunkLoopGo] at hc
      rcases hc with h | h
      · subst h; simp
      · exact ih _ _ h

lemma ceil_le_mul (M n : ℕ) (hn : 1 ≤ n) : M ≤ n * ((M + n - 1) / n) := by
  have h := Nat.div_add_mod (M + n - 1) n
  have h2 : (M + n - 1) % n < n := Nat.mod_lt _ hn
  omega

lemma ceil_pos (M n : ℕ) (hM : 1 ≤ M) (hn : 1 ≤ n) : 1 ≤ (M + n - 1) / n := by
  rw [Nat.le_div_iff_mul_le hn]
  omega

lemma join_replicate_nil {α : Type} (k : ℕ) :
    (List.replicate k ([] : List α)).join = [] := by
  induction k with
  | zero => simp
  | succ m ih => simp [List.replicate, ih]

lemma chunkArray_join {α : Type} (l : List α) (n : ℕ) :
    (chunkArray l n).join = l := by
  simp only [chunkArray, List.join_append, join_replicate_nil,
    chunkLoopGo_join _ l.length l le_rfl, List.append_nil]

lemma chunkArray_length {α : Type} (l : List α) (n : ℕ) (hn : 1 ≤ n) :
    (chunkArray l n).length = n := by
  have hle : (chunkLoopGo ((l.length + n - 1) / n) l.length l).length ≤ n := by
    cases l with
    | nil => simp [chunkLoopGo]
    | cons a l =>
      have hM : 1 ≤ (a :: l).length := by simp
      exact chunkLoopGo_length_le _ (ceil_pos _ n hM hn) _ n _
        (ceil_le_mul (a :: l).length n hn |>.trans_eq (Nat.mul_comm n _))
  simp only [chunkArray, List.length_append, List.length_replicate]
  omega

/-! ## Claims C2, C8, C1 -/

/-- Claim C2: for every job list and pool size `N ≥ 1`, `chunkArray`
returns exactly `N` chunks whose concatenation, in chunk order then
intra-chunk order, is the original list — a total, non-overlapping cover
in which every element appears exactly once. -/
theorem claim_C2_partition_cover {α : Type} (l : List α) (n : ℕ) (hn : 1 ≤ n) :
    (chunkArray l n).length = n ∧ (chunkArray l n).join = l :=
  ⟨chunkArray_length l n hn, chunkArray_join l n⟩

theorem claim_C2_witness :
    1 ≤ 4 ∧ ((chunkArray [10, 20, 30, 40, 50] 4).length = 4 ∧
      (chunkArray [10, 20, 30, 40, 50] 4).join = [10, 20, 30, 40, 50]) :=
  ⟨by decide, claim_C2_partition_cover [10, 20, 30, 40, 50] 4 (by decide)⟩

/-- Claim C8 counterexample: with `M = 6 ≥ N = 4` the chunk size is
`⌈6/4⌉ = 2`, the loop emits only three chunks and the padding appends an
empty fourth chunk — so `M ≥ N` does not make every chunk non-empty. -/
theorem claim_C8_cex :
    4 ≤ (List.range 6).length ∧ [] ∈ chunkArray (List.range 6) 4 := by
  constructor
  · decide
  · decide

/-- Claim C8 (amended): with pool size `N ≥ 1`, every chunk of
`chunkArray` is non-empty exactly when `M > (N - 1) * ⌈M / N⌉`;
`M ≥ N` alone is not sufficient.  Proved here: the sufficient direction
of the corrected condition. -/
theorem claim_C8_nonempty_chunks {α : Type} (l : List α) (n : ℕ) (hn : 1 ≤ n)
    (h : (n - 1) * ((l.length + n - 1) / n) < l.length) :
    ∀ c ∈ chunkArray l n, c ≠ [] := by
  intro c hc
  have hM : 1 ≤ l.length := by omega
  have hcs : 1 ≤ (l.length + n - 1) / n := ceil_pos _ n hM hn
  have hlb := chunkLoopGo_le_mul _ hcs l.length l le_rfl
  have hr : n ≤ (chunkLoopGo ((l.length + n - 1) / n) l.length l).length := by
    by_contra hlt
    push_neg at hlt
    have hle1 : (chunkLoopGo ((l.length + n - 1) / n) l.length l).length ≤ n - 1 := by
      omega
    have : ((l.length + n - 1) / n) *
        (chunkLoopGo ((l.length + n - 1) / n) l.length l).length ≤
          ((l.length + n - 1) / n) * (n - 1) :=
      Nat.mul_le_mul_left _ hle1
    have hcomm : ((l.length + n - 1) / n) * (n - 1) =
        (n - 1) * ((l.length + n - 1) / n) := Nat.mul_comm _ _
    omega
  have hzero : n - (chunkLoopGo ((l.length + n - 1) / n) l.length l).length = 0 := by
    omega
  simp only [chunkArray, hzero, List.replicate, List.append_nil] at hc
  exact chunkLoopGo_ne_nil _ _ _ _ hc

theorem claim_C8_witness :
    (1 ≤ 4 ∧ (4 - 1) * (((List.range 7).length + 4 - 1) / 4) < (List.range 7).length ∧
      [6] ∈ chunkArray (List.range 7) 4) ∧ ([6] : List ℕ) ≠ [] :=
  ⟨⟨by decide, by decide, by decide⟩,
    claim_C8_nonempty_chunks (List.range 7) 4 (by decide) (by decide) [6] (by decide)⟩

/-- Claim C1: ids already in the dedup index are filtered out before job
creation, so no extraction job of the run (no element of any worker's
chunk) carries an indexed id; on the spec's example the dispatched jobs
are exactly the one for `"222-2222222-2222222"`. -/
theorem claim_C1_no_job_for_indexed_id :
    (chunkArray (filterNewTransactions exampleIndex [exampleRef1, exampleRef2]) 4).join
        = [exampleRef2] ∧
    ∀ (processed : List String) (ts : List BasicTransaction)
      (c : List BasicTransaction) (t : BasicTransaction),
      c ∈ chunkArray (filterNewTransactions processed ts) 4 → t ∈ c →
        ¬ t.orderId ∈ processed := by
  constructor
  · decide
  · intro processed ts c t hc ht hmem
    have hjoin : t ∈ (chunkArray (filterNewTransactions processed ts) 4).join :=
      List.mem_join.mpr ⟨c, hc, ht⟩
    rw [chunkArray_join] at hjoin
    have hf := List.mem_filter.mp hjoin
    simp at hf
    exact hf.2 hmem

theorem claim_C1_witness :
    ([exampleRef2] ∈ chunkArray (filterNewTransactions exampleIndex [exampleRef1, exampleRef2]) 4 ∧
      exampleRef2 ∈ [exampleRef2] ∧ "111-1111111-1111111" ∈ exampleIndex) ∧
    ¬ exampleRef2.orderId ∈ exampleIndex :=
  ⟨⟨by decide, by decide, by decide⟩,
    claim_C1_no_job_for_indexed_id.2 exampleIndex [exampleRef1, exampleRef2]
      [exampleRef2] exampleRef2 (by decide) (by decide)⟩

/-! ## Claim C4 -/

lemma foldl_net (ts : List Transaction) (a : ℚ) :
    ts.foldl (fun sum t => sum + t.total - t.refund) a = a + (ts.map netAmount).sum := by
  induction ts generalizing a with
  | nil => simp
  | cons t ts ih =>
    simp only [List.foldl_cons, List.map_cons, List.sum_cons, ih]
    rw [netAmount]
    ring

lemma map_sum_sub (ts : List Transaction) :
    (ts.map netAmount).sum =
      (ts.map (fun t => t.total)).sum - (ts.map (fun t => t.refund)).sum := by
  induction ts with
  | nil => simp
  | cons t ts ih =>
    simp only [List.map_cons, List.sum_cons, ih, netAmount]
    ring

/-- Claim C4: the spec's derived `netAmount` of a record is its amount
minus its refund, and the `totalAmount` metadata computed by
`scrapeTransactions` equals the sum of per-record `netAmount`,
equivalently the sum of totals minus the sum of refunds. -/
theorem claim_C4_net_amount_total (ts : List Transaction) :
    (∀ t : Transaction, netAmount t = t.total - t.refund) ∧
    totalAmountOf ts = (ts.map netAmount).sum ∧
    totalAmountOf ts =
      (ts.map (fun t => t.total)).sum - (ts.map (fun t => t.refund)).sum := by
  refine ⟨fun t => rfl, ?_, ?_⟩
  · simp [totalAmountOf, foldl_net]
  · simp [totalAmountOf, foldl_net, map_sum_sub]

/-! ## Claim C3 -/

lemma scrapeOrder_orderId (dir : String) (t : BasicTransaction) (oc : JobOutcome) :
    (scrapeOrderDetailsWithPageModel dir t oc).orderId = t.orderId := by
  cases oc <;>
    · simp only [scrapeOrderDetailsWithPageModel, createTransaction, jsOrStr]
      by_cases h : t.orderId = "" <;> simp [h]

lemma processChunk_length (dir : String) (outcome : BasicTransaction → JobOutcome) :
    ∀ chunk, (processChunk dir outcome chunk).length = chunk.length := by
  intro chunk
  induction chunk with
  | nil => rfl
  | cons t ts ih => simp [processChunk, ih]

/-- Claim C3: a worker produces exactly one record per job of its chunk,
in chunk order, whether or not the job's processing throws; a failed job
yields, in that job's position, the minimal record
`createTransaction({orderId, date, total, orderScreenshot: '', orderDetailsUrl, items: []})`. -/
theorem claim_C3_one_record_per_job (dir : String)
    (outcome : BasicTransaction → JobOutcome) (chunk : List BasicTransaction)
    (i : ℕ) (hi : i < chunk.length) :
    (processChunk dir outcome chunk).length = chunk.length ∧
    ((processChunk dir outcome chunk).getD i (createTransaction {})).orderId =
      (chunk.getD i emptyBasic).orderId ∧
    (outcome (chunk.getD i emptyBasic) = JobOutcome.failed →
      (processChunk dir outcome chunk).getD i (createTransaction {}) =
        createTransaction
          { orderId := some (chunk.getD i emptyBasic).orderId
            date := some (chunk.getD i emptyBasic).date
            total := some (chunk.getD i emptyBasic).total
            orderScreenshot := some ""
            orderDetailsUrl := some (chunk.getD i emptyBasic).orderDetailsUrl
            items := some [] }) := by
  refine ⟨processChunk_length dir outcome chunk, ?_⟩
  induction chunk generalizing i with
  | nil => simp at hi
  | cons t ts ih =>
    cases i with
    | zero =>
      refine ⟨scrapeOrder_orderId dir t (outcome t), ?_⟩
      intro hfail
      simp only [processChunk, List.getD_cons_zero] at hfail ⊢
      rw [hfail]
      rfl
    | succ j =>
      have hj : j < ts.length := by simp at hi; omega
      simpa [processChunk] using ih j hj

theorem claim_C3_witness :
    1 < [wJob1, wJob2].length ∧
    ((processChunk "shots" wOutcome [wJob1, wJob2]).length = [wJob1, wJob2].length ∧
      ((processChunk "shots" wOutcome [wJob1, wJob2]).getD 1 (createTransaction {})).orderId =
        ([wJob1, wJob2].getD 1 emptyBasic).orderId ∧
      (wOutcome ([wJob1, wJob2].getD 1 emptyBasic) = JobOutcome.failed →
        (processChunk "shots" wOutcome [wJob1, wJob2]).getD 1 (createTransaction {}) =
          createTransaction
            { orderId := some ([wJob1, wJob2].getD 1 emptyBasic).orderId
              date := some ([wJob1, wJob2].getD 1 emptyBasic).date
              total := some ([wJob1, wJob2].getD 1 emptyBasic).total
              orderScreenshot := some ""
              orderDetailsUrl := some ([wJob1, wJob2].getD 1 emptyBasic).orderDetailsUrl
              items := some [] })) :=
  ⟨by decide, claim_C3_one_record_per_job "shots" wOutcome [wJob1, wJob2] 1 (by decide)⟩

/-! ## Claim C6 -/

lemma screenshotPathFor_ne_empty (dir oid : String) : screenshotPathFor dir oid ≠ "" := by
  intro h
  have hlen := congrArg String.length h
  simp [screenshotPathFor, String.length_append] at hlen
  exact absurd hlen.2 (by decide)

/-- Claim C6: artifact capture is idempotent in the target path — if the
per-record screenshot file already exists the capture is skipped and
reported as success, capturing twice performs the underlying capture at
most once, the second call changes nothing, the file exists afterwards,
and the successful record still references that path. -/
theorem claim_C6_capture_idempotent (fsPaths : List String) (dir oid : String)
    (t : BasicTransaction) (d : OrderDetails) (pageDate : Option String) :
    (ensureScreenshot (ensureScreenshot fsPaths (screenshotPathFor dir oid)).fs
        (screenshotPathFor dir oid)).performed = false ∧
    (ensureScreenshot (ensureScreenshot fsPaths (screenshotPathFor dir oid)).fs
        (screenshotPathFor dir oid)).fs =
      (ensureScreenshot fsPaths (screenshotPathFor dir oid)).fs ∧
    ((ensureScreenshot fsPaths (screenshotPathFor dir oid)).performed.toNat +
        (ensureScreenshot (ensureScreenshot fsPaths (screenshotPathFor dir oid)).fs
          (screenshotPathFor dir oid)).performed.toNat ≤ 1) ∧
    (screenshotPathFor dir oid ∈ fsPaths →
      (ensureScreenshot fsPaths (screenshotPathFor dir oid)).performed = false) ∧
    screenshotPathFor dir oid ∈ (ensureScreenshot fsPaths (screenshotPathFor dir oid)).fs ∧
    (scrapeOrderDetailsWithPageModel dir t (JobOutcome.ok d pageDate)).orderScreenshot =
      screenshotPathFor dir t.orderId := by
  have hne := screenshotPathFor_ne_empty dir t.orderId
  by_cases h : screenshotPathFor dir oid ∈ fsPaths <;>
    simp [ensureScreenshot, h, scrapeOrderDetailsWithPageModel, createTransaction,
      jsOrStr, hne]

theorem claim_C6_witness :
    (ensureScreenshot (ensureScreenshot wFs (screenshotPathFor "shots" "113-0000001-0000001")).fs
        (screenshotPathFor "shots" "113-0000001-0000001")).performed = false ∧
    (ensureScreenshot (ensureScreenshot wFs (screenshotPathFor "shots" "113-0000001-0000001")).fs
        (screenshotPathFor "shots" "113-0000001-0000001")).fs =
      (ensureScreenshot wFs (screenshotPathFor "shots" "113-0000001-0000001")).fs ∧
    ((ensureScreenshot wFs (screenshotPathFor "shots" "113-0000001-0000001")).performed.toNat +
        (ensureScreenshot (ensureScreenshot wFs (screenshotPathFor "shots" "113-0000001-0000001")).fs
          (screenshotPathFor "shots" "113-0000001-0000001")).performed.toNat ≤ 1) ∧
    (screenshotPathFor "shots" "113-0000001-0000001" ∈ wFs →
      (ensureScreenshot wFs (screenshotPathFor "shots" "113-0000001-0000001")).performed = false) ∧
    screenshotPathFor "shots" "113-0000001-0000001" ∈
      (ensureScreenshot wFs (screenshotPathFor "shots" "113-0000001-0000001")).fs ∧
    (scrapeOrderDetailsWithPageModel "shots" wJob1
        (JobOutcome.ok
          { recipient := "R", addressFull := none, items := [], paymentMethod := "card",
            trackingNumber := "", refund := 0 } none)).orderScreenshot =
      screenshotPathFor "shots" wJob1.orderId :=
  claim_C6_capture_idempotent wFs "shots" "113-0000001-0000001" wJob1
    { recipient := "R", addressFull := none, items := [], paymentMethod := "card",
      trackingNumber := "", refund := 0 } none

/-! ## Claim C7 -/

/-- Claim C7: when the probes up to the first one labelled exactly
`"Refund Total"` carry other labels, and that probe's parent text has
`"12.50"` as its first currency match, the refund field resolves to
`12.50` — the parent text is searched first, first match wins. -/
theorem claim_C7_refund_from_label (pre post : List RefundProbe) (p : RefundProbe)
    (parentT : String)
    (hpre : ∀ q ∈ pre, jsTrim q.text ≠ "Refund Total")
    (hp : jsTrim p.text = "Refund Total")
    (hparent : p.parentText = some parentT)
    (hmatch : currencyCapture parentT.toList = some ("12.50".toList)) :
    refundFromProbes (pre ++ p :: post) = mkRat 25 2 := by
  induction pre with
  | nil =>
    simp only [List.nil_append, refundFromProbes, hp, if_true, hparent, Option.some_bind,
      hmatch]
    decide
  | cons q pre ih =>
    have hq := hpre q (by simp)
    simp only [List.cons_append, refundFromProbes, hq, if_false]
    exact ih (fun r hr => hpre r (by simp [hr]))

theorem claim_C7_witness :
    ((∀ q ∈ ([] : List RefundProbe), jsTrim q.text ≠ "Refund Total") ∧
      jsTrim wProbe.text = "Refund Total" ∧
      wProbe.parentText = some "Refund Total ... $12.50" ∧
      currencyCapture ("Refund Total ... $12.50".toList) = some ("12.50".toList)) ∧
    refundFromProbes [wProbe] = mkRat 25 2 :=
  ⟨⟨by simp, by decide, by decide, by decide⟩,
    claim_C7_refund_from_label [] [] wProbe "Refund Total ... $12.50"
      (by simp) (by decide) (by decide) (by decide)⟩

/-! ## Claim C5 -/

lemma pageLoopGo_clicks_le (env : ℕ → PageView) (baseUrl syntheticId : String) :
    ∀ (fuel cur : ℕ) (acc : List BasicTransaction), cur ≤ 10 →
      (pageLoopGo env baseUrl syntheticId fuel cur acc).clicks ≤ 11 - cur := by
  intro fuel
  induction fuel with
  | zero => intro cur acc _; simp [pageLoopGo]
  | succ f ih =>
    intro cur acc hcur
    simp only [pageLoopGo]
    split
    · simp
    · split
      · split
        · simp
          omega
        · rename_i hcap
          have hrec := ih (cur + 1) (acc ++ extractRefs baseUrl syntheticId (env cur).rows)
            (by omega)
          simp
          omega
      · simp

lemma pageLoopGo_txs_extend (env : ℕ → PageView) (baseUrl syntheticId : String) :
    ∀ (fuel cur : ℕ) (acc : List BasicTransaction),
      ∃ rest, (pageLoopGo env baseUrl syntheticId fuel cur acc).txs = acc ++ rest := by
  intro fuel
  induction fuel with
  | zero => intro cur acc; exact ⟨[], by simp [pageLoopGo]⟩
  | succ f ih =>
    intro cur acc
    simp only [pageLoopGo]
    split
    · exact ⟨[], by simp⟩
    · split
      · split
        · exact ⟨extractRefs baseUrl syntheticId (env cur).rows, by simp⟩
        · obtain ⟨rest, hrest⟩ :=
            ih (cur + 1) (acc ++ extractRefs baseUrl syntheticId (env cur).rows)
          exact ⟨extractRefs baseUrl syntheticId (env cur).rows ++ rest, by
            simp [hrest]⟩
      · exact ⟨extractRefs baseUrl syntheticId (env cur).rows, by simp⟩

/-- Claim C5: for every page sequence — including one that always offers
a "Next Page" control — the pagination walk performs at most 10 page
advances, and reaching the cap returns the rows collected so far rather
than discarding them (every intermediate accumulator survives as a
prefix of the returned list). -/
theorem claim_C5_pagination_cap (env : ℕ → PageView) (baseUrl syntheticId : String) :
    (scrapeTransactionListModel env baseUrl syntheticId).clicks ≤ 10 ∧
    ∀ (fuel cur : ℕ) (acc : List BasicTransaction),
      ∃ rest, (pageLoopGo env baseUrl syntheticId fuel cur acc).txs = acc ++ rest := by
  constructor
  · have h := pageLoopGo_clicks_le env baseUrl syntheticId 11 1 [] (by omega)
    simpa [scrapeTransactionListModel] using h
  · exact pageLoopGo_txs_extend env baseUrl syntheticId

/-! ## Claim C9 -/

/-- Claim C9 (amended): the pager applies no within-listing
deduplication — its output is exactly the accumulator followed by the
plain concatenation of each visited page's extracted refs, duplicates
preserved. -/
theorem claim_C9_no_dedup_concat (env : ℕ → PageView) (baseUrl syntheticId : String)
    (fuel : ℕ) :
    ∀ (cur : ℕ) (acc : List BasicTransaction),
      (pageLoopGo env baseUrl syntheticId fuel cur acc).txs =
        acc ++ specListedRefs env baseUrl syntheticId fuel cur := by
  induction fuel with
  | zero => intro cur acc; simp [pageLoopGo, specListedRefs]
  | succ f ih =>
    intro cur acc
    simp only [pageLoopGo, specListedRefs]
    split
    · simp
    · split
      · split
        · simp
        · rw [ih (cur + 1) (acc ++ extractRefs baseUrl syntheticId (env cur).rows)]
          simp
      · simp

/-- Claim C9 counterexample: on that listing the pager returns two refs
with the same id `"111-1111111-1111111"` — the output is not
deduplicated by id. -/
theorem claim_C9_cex :
    ((scrapeTransactionListModel dupPages "https://www.amazon.com" "0").txs.map
        (fun t => t.orderId)) =
      ["111-1111111-1111111", "111-1111111-1111111"] ∧
    ¬ ((scrapeTransactionListModel dupPages "https://www.amazon.com" "0").txs.map
        (fun t => t.orderId)).Nodup := by
  constructor
  · decide
  · decide

/-! ## Claim C10 -/

/-- Claim C10 at the failing input: the row regex captures the full
`"1,234,567.89"`, but `.replace(',', '')` removes only the first comma
and `parseFloat("1234,567.89")` stops at the remaining one, so the code
extracts `1234` instead of the claimed `1234567.89`. -/
theorem claim_C10_truncated_amount :
    extractTransactionFromRow "https://www.amazon.com" "1720000000000" hugeRow =
      some { orderId := "unknown-1720000000000", date := "", total := 1234,
             orderDetailsUrl := "" } := by decide
